import Mathlib

/-!
# InfraMap ETL pipeline — verification of the spec claims

Shallow embedding of the two ETL script variants (offset pagination and
spatial tiling) that fetch bridge records from a WFS feature service,
convert UTM32 coordinates to WGS84, normalize the loosely typed attribute
bag into a flat row, deduplicate by `bauwerksnummer`, and upsert the rows
in batches.

Modelling conventions:
* JavaScript `unknown` property values are modelled by `JsVal`, carrying the
  two observations the scripts make of a value: its `String(v)` rendering and
  its `Number(v)` coercion (`none` models `NaN`).
* `parseFloat` / `parseInt` are parameters of the normalizer (`pf` / `pi`):
  the scripts only apply them to strings and inspect the numeric result, so
  the theorems hold for every parser, and witnesses instantiate concrete ones.
  `none` models `NaN`.
* The floating-point UTM32→WGS84 conversion is likewise a parameter
  `conv : ℚ → ℚ → ℚ × ℚ` of the normalizer; the claims settled here concern
  the control flow around the converted pair, not its numeric value.
* Machine numbers are modelled by `ℚ` (the scripts perform no overflowing
  integer arithmetic on the paths under consideration).
-/

/-- One observation of a JavaScript `unknown` property value: `toStr` is the
result of `String(v)`, `toNum` the result of `Number(v)` with `none` for
`NaN`. -/

structure JsVal where
  toStr : String
  toNum : Option ℚ

/-- A raw WFS feature: `geometry?.coordinates` (`none` when the geometry is
missing) and the untyped property bag. -/

structure BastFeature where
  coordinates : Option (List ℚ)
  props : String → Option JsVal

/-- The canonical row schema upserted into the `bruecken` table. -/

structure BridgeRow where
  bauwerksnummer : String
  name : String
  zustandsnote : Option ℚ
  zustandsklasse : Option String
  baujahr : Option ℚ
  strasse : Option String
  ort : Option String
  landkreis : Option String
  bundesland : Option String
  baustoffklasse : Option String
  traglastindex : Option ℚ
  laenge : Option ℚ
  breite : Option ℚ
  lat : ℚ
  lng : ℚ
  stand : Option String
deriving DecidableEq

/-- `String(v ?? d)` for a possibly absent property value and a string
default. -/

def jsStrD (v : Option JsVal) (d : String) : String :=
  match v with
  | some x => x.toStr
  | none => d

/-- `String(v ?? '')`. -/

def jsStr (v : Option JsVal) : String :=
  jsStrD v ""

/-- Left-to-right `??` coalescing of a chain of property lookups. -/

def firstSome (l : List (Option JsVal)) : Option JsVal :=
  l.foldr (fun x acc => match x with | some v => some v | none => acc) none

/-- `String(a ?? b ?? ... ?? '')`. -/

def jsStrC (l : List (Option JsVal)) : String :=
  jsStr (firstSome l)

/-- JavaScript `s || null` on a string: the empty string is falsy. -/

def strOrNull (s : String) : Option String :=
  if s = "" then none else some s

/-- JavaScript `x || null` on a number: `NaN` (here `none`) and `0` are
falsy, every other number — negative ones included — is kept. -/

def jsOrNull (x : Option ℚ) : Option ℚ :=
  match x with
  | none => none
  | some q => if q = 0 then none else some q

/-- JavaScript `x > 0 ? x : null` on a number (`NaN > 0` is false). -/

def posOrNull (x : Option ℚ) : Option ℚ :=
  match x with
  | none => none
  | some q => if 0 < q then some q else none

/-- `Number(v)` of a possibly absent value: `Number(undefined)` is `NaN`. -/

def jsNum (v : Option JsVal) : Option ℚ :=
  match v with
  | none => none
  | some x => x.toNum

/-- `Number(v ?? d)` with a numeric default. -/

def jsNumD (v : Option JsVal) (d : ℚ) : Option ℚ :=
  match v with
  | none => some d
  | some x => x.toNum

/-- Drop whitespace from both ends of a character list. -/

def trimList (l : List Char) : List Char :=
  ((l.dropWhile Char.isWhitespace).reverse.dropWhile Char.isWhitespace).reverse

/-- JavaScript `s.trim()`, modelled structurally on the character list. -/

def jsTrim (s : String) : String :=
  String.mk (trimList s.data)

/-!
## Deduplicator

Both script variants collapse rows into a JavaScript `Map` keyed by
`bauwerksnummer` via `map.set(row.bauwerksnummer, row)` — the pagination
variant after the fetch loop (`deduped`), the tiling variant incrementally
(`allBridges`). A JS `Map` keeps the insertion position of the first
occurrence of a key and overwrites its value in place; we model it as an
association list with exactly that update rule.
-/

/-- `Map.set m k v`: overwrite in place if `k` is present, else append. -/

def mapSet (m : List (String × BridgeRow)) (k : String) (v : BridgeRow) :
    List (String × BridgeRow) :=
  match m with
  | [] => [(k, v)]
  | (k0, v0) :: rest =>
      if k0 = k then (k0, v) :: rest else (k0, v0) :: mapSet rest k v

/-- `Map.get m k` as the scripts would observe it. -/

def lookupKey (k : String) : List (String × BridgeRow) → Option BridgeRow
  | [] => none
  | (k0, v) :: rest => if k0 = k then some v else lookupKey k rest

/-- The Deduplicator: fold the stream of normalized rows into the map,
`deduped.set(b.bauwerksnummer, b)` for each row in order. -/

def dedupe (rows : List BridgeRow) : List (String × BridgeRow) :=
  rows.foldl (fun m b => mapSet m b.bauwerksnummer b) []

/-- Concrete rows used in the claim instances: two observations of the same
asset with different attribute values, plus a distinct third asset. -/

def rowEarly : BridgeRow :=
  { bauwerksnummer := "B1", name := "Alte Messung", zustandsnote := some 2,
    zustandsklasse := none, baujahr := none, strasse := none, ort := none,
    landkreis := none, bundesland := none, baustoffklasse := none,
    traglastindex := none, laenge := none, breite := none,
    lat := 50, lng := 9, stand := none }

def rowLate : BridgeRow :=
  { rowEarly with name := "Neue Messung", zustandsnote := some 3 }

def rowOther : BridgeRow :=
  { rowEarly with bauwerksnummer := "B2" }

/-!
## Record Normalizer

`transformFeature` of the offset-pagination script (`EtlPaged`) and of the
spatial-tiling script (`EtlTiled`). The UTM32→WGS84 conversion `conv` and
the JavaScript string parsers `pf` (`parseFloat`) / `pi2` (`parseInt`) are
parameters: the scripts only observe the rational results (with `none` for
`NaN`), so every theorem below is proved for all parsers, and the concrete
instances pick explicit ones.
-/

namespace EtlPaged

/-- Bundesland code → name mapping (`BL_MAP`), 16 entries. -/

def BL_MAP (q : ℚ) : Option String :=
  if q = 1 then some "Schleswig-Holstein"
  else if q = 2 then some "Hamburg"
  else if q = 3 then some "Niedersachsen"
  else if q = 4 then some "Bremen"
  else if q = 5 then some "Nordrhein-Westfalen"
  else if q = 6 then some "Hessen"
  else if q = 7 then some "Rheinland-Pfalz"
  else if q = 8 then some "Baden-Württemberg"
  else if q = 9 then some "Bayern"
  else if q = 10 then some "Saarland"
  else if q = 11 then some "Berlin"
  else if q = 12 then some "Brandenburg"
  else if q = 13 then some "Mecklenburg-Vorpommern"
  else if q = 14 then some "Sachsen"
  else if q = 15 then some "Sachsen-Anhalt"
  else if q = 16 then some "Thüringen"
  else none

/-- `transformFeature` of the pagination script: reject on missing/short
geometry, on an identifier that is empty after trimming, or on converted
coordinates outside the Germany envelope; otherwise build the row. -/

def transformFeature (conv : ℚ → ℚ → ℚ × ℚ) (pf : String → Option ℚ)
    (f : BastFeature) : Option BridgeRow :=
  match f.coordinates with
  | none => none
  | some cs =>
    if cs.length < 2 then none else
    let bwnr := jsTrim (jsStr (f.props "bwnr"))
    if bwnr = "" then none else
    let p := conv (cs.getD 0 0) (cs.getD 1 0)
    if p.1 < 47 ∨ 55.5 < p.1 ∨ p.2 < 5 ∨ 15.5 < p.2 then none else
    some
      { bauwerksnummer := bwnr
        name := jsTrim (jsStrD (f.props "buildingname") "Unbekannt")
        zustandsnote := posOrNull (pf (jsStr (f.props "zn92019")))
        zustandsklasse := strOrNull (jsTrim (jsStr (f.props "scoreclass")))
        baujahr := jsOrNull (jsNum (f.props "yearbuild"))
        strasse := strOrNull (jsTrim (jsStr (f.props "issue")))
        ort := strOrNull (jsTrim (jsStr (f.props "place")))
        landkreis := strOrNull (jsTrim (jsStr (f.props "state")))
        bundesland :=
          match jsNumD (f.props "bl") 0 with
          | none => none
          | some q => BL_MAP q
        baustoffklasse := strOrNull (jsTrim (jsStr (f.props "materialclass")))
        traglastindex := none
        laenge := jsOrNull (jsNum (f.props "length"))
        breite := jsOrNull (jsNum (f.props "width"))
        lat := p.1
        lng := p.2
        stand := strOrNull (jsTrim (jsStr (f.props "updated"))) }

end EtlPaged

namespace EtlTiled

/-- `transformFeature` of the tiling script: same rejection structure, but
multi-candidate attribute names, no trimming, and `|| null` coercions. -/

def transformFeature (conv : ℚ → ℚ → ℚ × ℚ) (pf pi2 : String → Option ℚ)
    (f : BastFeature) : Option BridgeRow :=
  match f.coordinates with
  | none => none
  | some cs =>
    if cs.length < 2 then none else
    let bwnr := jsStrC [f.props "bwnr", f.props "bauwerksnummer", f.props "id"]
    if bwnr = "" then none else
    let p := conv (cs.getD 0 0) (cs.getD 1 0)
    if p.1 < 47 ∨ 55.5 < p.1 ∨ p.2 < 5 ∨ 15.5 < p.2 then none else
    some
      { bauwerksnummer := bwnr
        name := jsStrD (firstSome [f.props "buildingname", f.props "name"]) "Unbekannt"
        zustandsnote := jsOrNull (pf (jsStrC [f.props "zn92019", f.props "zustandsnote"]))
        zustandsklasse := strOrNull (jsStrC [f.props "scoreclass", f.props "zustandsklasse"])
        baujahr := jsOrNull (pi2 (jsStrC [f.props "yearbuild", f.props "baujahr"]))
        strasse := strOrNull (jsStrC [f.props "issue", f.props "strasse"])
        ort := strOrNull (jsStrC [f.props "place", f.props "ort"])
        landkreis := strOrNull (jsStrC [f.props "state", f.props "landkreis"])
        bundesland := strOrNull (jsStr (f.props "bundesland"))
        baustoffklasse := strOrNull (jsStrC [f.props "materialclass", f.props "baustoffklasse"])
        traglastindex := jsOrNull (pf (jsStrC [f.props "capacityindex", f.props "traglastindex"]))
        laenge := jsOrNull (pf (jsStrC [f.props "length", f.props "laenge"]))
        breite := jsOrNull (pf (jsStrC [f.props "width", f.props "breite"]))
        lat := p.1
        lng := p.2
        stand := strOrNull (jsStrC [f.props "updated", f.props "stand"]) }

end EtlTiled

/-- The everywhere-`NaN` parser, used in concrete instances. -/

def pfNone : String → Option ℚ := fun _ => none

/-- Conversion stub landing just below the latitude envelope. -/

def convLow : ℚ → ℚ → ℚ × ℚ := fun _ _ => (46.999999, 9)

/-- Conversion stub landing just inside the latitude envelope. -/

def convHigh : ℚ → ℚ → ℚ × ℚ := fun _ _ => (47.000001, 9)

/-- Conversion stub landing well inside the envelope. -/

def convMid : ℚ → ℚ → ℚ × ℚ := fun _ _ => (50, 9)

/-- A well-formed feature carrying only a stable identifier. -/

def featB : BastFeature :=
  { coordinates := some [500000, 5200000]
    props := fun k => if k = "bwnr" then some ⟨"B1", none⟩ else none }

/-- A feature with no geometry, used to instantiate the rejection theorem. -/

def featNoGeom : BastFeature :=
  { coordinates := none
    props := fun k => if k = "bwnr" then some ⟨"B1", none⟩ else none }

/-- The everywhere-`NaN` parser except on `"-1"`, modelling
`parseFloat("-1") = -1`. -/

def pfNeg : String → Option ℚ := fun s => if s = "-1" then some (-1) else none

/-- A feature whose condition-score attribute renders as `"-1"`. -/

def featScore : BastFeature :=
  { coordinates := some [500000, 5200000]
    props := fun k =>
      if k = "bwnr" then some ⟨"B1", none⟩
      else if k = "zn92019" then some ⟨"-1", some (-1)⟩ else none }

/-- The row the tiling normalizer produces from `featScore`. -/

def rowNeg : BridgeRow :=
  { bauwerksnummer := "B1", name := "Unbekannt", zustandsnote := some (-1),
    zustandsklasse := none, baujahr := none, strasse := none, ort := none,
    landkreis := none, bundesland := none, baustoffklasse := none,
    traglastindex := none, laenge := none, breite := none,
    lat := 50, lng := 9, stand := none }

/-- The row the tiling normalizer produces from `featBL` (note: no
subdivision name). -/

def rowPlain : BridgeRow :=
  { bauwerksnummer := "B1", name := "Unbekannt", zustandsnote := none,
    zustandsklasse := none, baujahr := none, strasse := none, ort := none,
    landkreis := none, bundesland := none, baustoffklasse := none,
    traglastindex := none, laenge := none, breite := none,
    lat := 50, lng := 9, stand := none }

/-- A feature carrying subdivision code 9 in its `bl` attribute. -/

def featBL : BastFeature :=
  { coordinates := some [500000, 5200000]
    props := fun k =>
      if k = "bwnr" then some ⟨"B1", none⟩
      else if k = "bl" then some ⟨"9", some 9⟩ else none }

/-- The row the pagination normalizer produces from `featBL`. -/

def rowBayern : BridgeRow :=
  { bauwerksnummer := "B1", name := "Unbekannt", zustandsnote := none,
    zustandsklasse := none, baujahr := none, strasse := none, ort := none,
    landkreis := none, bundesland := some "Bayern", baustoffklasse := none,
    traglastindex := none, laenge := none, breite := none,
    lat := 50, lng := 9, stand := none }

/-!
## Loader

`upsertBridges` slices the row list into consecutive batches of
`UPSERT_BATCH_SIZE` (`bridges.slice(i, i + UPSERT_BATCH_SIZE)` for
`i = 0, 500, 1000, ...`), issues one upsert per batch, counts the batch
into `inserted` only when the destination reports no error, and always
proceeds to the next batch. The destination's per-call outcome is an
oracle `err` indexed by batch ordinal (the code's loop variable is the
record offset `i = 500·k`).
-/

def UPSERT_BATCH_SIZE : ℕ := 500

/-- The consecutive slices `bridges.slice(i, i + UPSERT_BATCH_SIZE)` taken
by the loop. -/

def toBatches (l : List BridgeRow) : List (List BridgeRow) :=
  match l with
  | [] => []
  | b :: rest =>
      (b :: rest).take UPSERT_BATCH_SIZE ::
        toBatches ((b :: rest).drop UPSERT_BATCH_SIZE)
termination_by l.length
decreasing_by
  simp [UPSERT_BATCH_SIZE]
  omega

/-- The loop body of `upsertBridges`, from the batch with ordinal `k` on. -/

def upsertGo (err : ℕ → Bool) (k : ℕ) (l : List BridgeRow) : ℕ :=
  match l with
  | [] => 0
  | b :: rest =>
      (if err k then 0 else ((b :: rest).take UPSERT_BATCH_SIZE).length) +
        upsertGo err (k + 1) ((b :: rest).drop UPSERT_BATCH_SIZE)
termination_by l.length
decreasing_by
  simp [UPSERT_BATCH_SIZE]
  omega

/-- `upsertBridges`: returns `inserted`, the number of records in batches
whose upsert reported no error. -/

def upsertBridges (err : ℕ → Bool) (bridges : List BridgeRow) : ℕ :=
  upsertGo err 0 bridges

/-!
## Pipeline tail: destination effects after the fetch phase

`DestEffect` records the calls `main` makes against the destination store
once fetching is over: one upsert per batch, then the materialized-view
refresh. The pair's second component is the process exit status.
-/

inductive DestEffect where
  | upsertCall (batch : List BridgeRow)
  | refreshCall
deriving DecidableEq

namespace EtlPaged

/-- Tail of the pagination `main` after the fetch loop: with zero fetched
bridges it prints an error and exits 1 making no destination call;
otherwise it dedupes, upserts every batch of the unique rows, then invokes
the refresh, and the process ends with status 0 (a refresh failure is only
warned about). -/

def mainAfterFetch (allBridges : List BridgeRow) : List DestEffect × ℕ :=
  if allBridges = [] then ([], 1)
  else
    ((toBatches ((dedupe allBridges).map Prod.snd)).map DestEffect.upsertCall
        ++ [DestEffect.refreshCall], 0)

end EtlPaged

namespace EtlTiled

/-- Tail of the tiling `main` after the tile loop (its `Map` is already
deduplicated): with zero bridges it attempts a GetCapabilities request
against the source (not the destination) and exits 1; otherwise it upserts
every batch and refreshes, exiting 0. -/

def mainAfterFetch (allBridges : List (String × BridgeRow)) :
    List DestEffect × ℕ :=
  if allBridges = [] then ([], 1)
  else
    ((toBatches (allBridges.map Prod.snd)).map DestEffect.upsertCall
        ++ [DestEffect.refreshCall], 0)

end EtlTiled

/-!
## Feature Source Client: the pagination fetch loop

The `while (true)` loop of the pagination script, one iteration =
`loopStep`. The page fetch is an oracle `fetch attempt startIndex` (the
same start index can behave differently across attempts, which models
transient failures); `FetchOutcome.thrown` covers a network error or a
non-ok HTTP status (`fetchPage` throws on both). On a throw the script
sleeps 2 s and loops again with all state unchanged (`delays` counts those
sleeps); `runLoop` iterates with fuel and returns the final state on
`break`, or `none` when the fuel is exhausted without a break.
-/

def PAGE_SIZE : ℕ := 1000

inductive FetchOutcome where
  | thrown
  | ok (features : List BastFeature) (total : Option ℕ)

structure LoopSt where
  startIndex : ℕ
  totalFeatures : Option ℕ
  pagesWithNoData : ℕ
  bridges : List BridgeRow
  delays : ℕ
deriving DecidableEq

inductive StepRes where
  | cont (s : LoopSt)
  | brk (s : LoopSt)
deriving DecidableEq

/-- `if (total !== null && totalFeatures === null) totalFeatures = total`. -/

def updTotal (cur t : Option ℕ) : Option ℕ :=
  match cur, t with
  | none, some v => some v
  | _, _ => cur

/-- The truthiness test `totalFeatures && startIndex >= totalFeatures`:
false when no total is on record **and also when the recorded total is 0**,
because `0` is falsy in JavaScript. -/

def totalBreak (s : LoopSt) : Bool :=
  match s.totalFeatures with
  | none => false
  | some t => !(t == 0) && decide (t ≤ s.startIndex)

/-- One iteration of the pagination fetch loop. -/

def loopStep (fetch : ℕ → ℕ → FetchOutcome)
    (tf : BastFeature → Option BridgeRow) (attempt : ℕ) (s : LoopSt) :
    StepRes :=
  match fetch attempt s.startIndex with
  | .thrown => .cont { s with delays := s.delays + 1 }
  | .ok features total =>
      let s1 : LoopSt := { s with totalFeatures := updTotal s.totalFeatures total }
      if features.isEmpty then
        if 3 ≤ s1.pagesWithNoData + 1 then
          .brk { s1 with pagesWithNoData := s1.pagesWithNoData + 1 }
        else
          .cont { s1 with
                    pagesWithNoData := s1.pagesWithNoData + 1
                    startIndex := s1.startIndex + PAGE_SIZE }
      else
        let s2 : LoopSt :=
          { s1 with
              pagesWithNoData := 0
              bridges := s1.bridges ++ features.filterMap tf
              startIndex := s1.startIndex + features.length }
        if totalBreak s2 then .brk s2 else .cont s2

/-- Run the loop with the given fuel: `some finalState` when it breaks,
`none` when the fuel runs out without a break. -/

def runLoop (fetch : ℕ → ℕ → FetchOutcome)
    (tf : BastFeature → Option BridgeRow) :
    ℕ → ℕ → LoopSt → Option LoopSt
  | 0, _, _ => none
  | fuel + 1, attempt, s =>
      match loopStep fetch tf attempt s with
      | .brk s2 => some s2
      | .cont s2 => runLoop fetch tf fuel (attempt + 1) s2

/-- The state at loop entry. -/

def initSt : LoopSt :=
  { startIndex := 0, totalFeatures := none, pagesWithNoData := 0,
    bridges := [], delays := 0 }

/-- A transform discarding every feature (the loop claims do not depend on
the transform). -/

def tfNone : BastFeature → Option BridgeRow := fun _ => none

/-- A minimal well-formed feature for loop scenarios. -/

def featP : BastFeature :=
  { coordinates := some [1, 2], props := fun _ => none }

/-- Oracle: every fetch throws. -/

def fetchThrown : ℕ → ℕ → FetchOutcome := fun _ _ => .thrown

/-- Oracle: attempts 0 and 1 throw, every later attempt returns one
feature and no total. -/

def fetchTwoFail : ℕ → ℕ → FetchOutcome :=
  fun attempt _ => if attempt ≤ 1 then .thrown else .ok [featP] none

/-- Oracle: every fetch returns one feature and a reported total of 0. -/

def fetchZeroTotal : ℕ → ℕ → FetchOutcome := fun _ _ => .ok [featP] (some 0)

/-!
## Feature Source Client: the tiled fetch (`fetchBridgeTile`)

The per-tile fetch of the tiling script. The HTTP layer is an oracle
keyed by the WFS `typeName` and the tile's bounding box; a response is
either a thrown error, or a reply with an ok-flag and a JSON body whose
decoding can itself throw or yield a feature collection with an optional
`features` array (`data.features ?? []`). The body of the JavaScript
`try` block is `fetchBridgeTileBody` (`Except` models a thrown exception),
and `fetchBridgeTile` is the surrounding `try/catch` returning `[]` on any
throw. The function contains no delay and no re-request of a layer: the
alternate layer name is queried only after a non-ok primary response.
-/

inductive JsonBody where
  | jthrow
  | jfeatures (fs : Option (List BastFeature))

inductive HttpResp where
  | thrown
  | resp (ok : Bool) (body : JsonBody)

namespace EtlTiled

/-- The `try`-block of `fetchBridgeTile`. -/

def fetchBridgeTileBody (http : String → ℚ × ℚ × ℚ × ℚ → HttpResp)
    (bbox : ℚ × ℚ × ℚ × ℚ) : Except Unit (List BastFeature) :=
  match http "bvwp:bruecken_offen" bbox with
  | .thrown => .error ()
  | .resp ok body =>
      if ok then
        match body with
        | .jthrow => .error ()
        | .jfeatures fs => .ok (fs.getD [])
      else
        match http "bast:bruecken" bbox with
        | .thrown => .error ()
        | .resp ok2 body2 =>
            if ok2 then
              match body2 with
              | .jthrow => .error ()
              | .jfeatures fs => .ok (fs.getD [])
            else
              .ok []

/-- `fetchBridgeTile`: the `try/catch` wrapper — every thrown error is
caught and turned into the empty feature list. -/

def fetchBridgeTile (http : String → ℚ × ℚ × ℚ × ℚ → HttpResp)
    (bbox : ℚ × ℚ × ℚ × ℚ) : List BastFeature :=
  match fetchBridgeTileBody http bbox with
  | .error _ => []
  | .ok fs => fs

/-- The sequence of WFS layer names requested for one tile: the alternate
layer is consulted exactly when the primary response is non-ok. -/

def tileRequests (http : String → ℚ × ℚ × ℚ × ℚ → HttpResp)
    (bbox : ℚ × ℚ × ℚ × ℚ) : List String :=
  match http "bvwp:bruecken_offen" bbox with
  | .resp false _ => ["bvwp:bruecken_offen", "bast:bruecken"]
  | _ => ["bvwp:bruecken_offen"]

end EtlTiled

/-- An HTTP oracle on which every request throws. -/

def httpDown : String → ℚ × ℚ × ℚ × ℚ → HttpResp := fun _ _ => .thrown

/-- Oracle: every fetch returns an empty page with no total. -/

def fetchEmpty : ℕ → ℕ → FetchOutcome := fun _ _ => .ok [] none

theorem lookupKey_mapSet (m : List (String × BridgeRow)) (k j : String)
    (v : BridgeRow) :
    lookupKey j (mapSet m k v) = if k = j then some v else lookupKey j m := by
  induction m with
  | nil =>
      by_cases h : k = j <;> simp [mapSet, lookupKey, h]
  | cons hd tl ih =>
      obtain ⟨k0, v0⟩ := hd
      by_cases h0 : k0 = k
      · subst h0
        by_cases h : k0 = j <;> simp [mapSet, lookupKey, h, ih]
      · by_cases h : k0 = j
        · subst h
          simp [mapSet, lookupKey, h0, Ne.symm h0]
        · simp [mapSet, lookupKey, h0, h, ih]

theorem mapSet_keys (m : List (String × BridgeRow)) (k : String)
    (v : BridgeRow) :
    (mapSet m k v).map Prod.fst =
      if k ∈ m.map Prod.fst then m.map Prod.fst
      else m.map Prod.fst ++ [k] := by
  induction m with
  | nil => simp [mapSet]
  | cons hd tl ih =>
      obtain ⟨k0, v0⟩ := hd
      by_cases h0 : k0 = k
      · subst h0
        simp [mapSet]
      · have hne : ¬ k = k0 := fun h => h0 h.symm
        by_cases hk : k ∈ tl.map Prod.fst <;>
          simp [mapSet, h0, ih, hk, hne]

theorem mapSet_keys_nodup (m : List (String × BridgeRow)) (k : String)
    (v : BridgeRow) (h : (m.map Prod.fst).Nodup) :
    ((mapSet m k v).map Prod.fst).Nodup := by
  rw [mapSet_keys]
  by_cases hk : k ∈ m.map Prod.fst
  · simpa [hk] using h
  · rw [if_neg hk, List.nodup_append]
    exact ⟨h, List.nodup_singleton k, by simpa using hk⟩

theorem dedupe_lookup_general (rows : List BridgeRow) :
    ∀ m k, lookupKey k (rows.foldl (fun m b => mapSet m b.bauwerksnummer b) m)
      = match rows.reverse.find? (fun b => b.bauwerksnummer = k) with
        | some b => some b
        | none => lookupKey k m := by
  induction rows using List.reverseRecOn with
  | nil => intro m k; simp
  | append_singleton rows b ih =>
      intro m k
      rw [List.foldl_append]
      simp only [List.foldl_cons, List.foldl_nil, List.reverse_append,
        List.reverse_singleton, List.singleton_append, List.find?_cons]
      by_cases hb : b.bauwerksnummer = k
      · simp [hb, lookupKey_mapSet]
      · have hb2 : (decide (b.bauwerksnummer = k)) = false := by
          simpa using hb
        rw [hb2]
        rw [lookupKey_mapSet]
        simp [hb, ih]

theorem dedupe_keys_nodup_general (rows : List BridgeRow) :
    ∀ m, (m.map Prod.fst).Nodup →
      (((rows.foldl (fun m b => mapSet m b.bauwerksnummer b) m)).map
        Prod.fst).Nodup := by
  induction rows with
  | nil => intro m h; simpa using h
  | cons b rest ih =>
      intro m h
      simp only [List.foldl_cons]
      exact ih _ (mapSet_keys_nodup m b.bauwerksnummer b h)

/-- C1. Deduplication is last-write-wins keyed by `bauwerksnummer`
(asset_id): after folding any stream of normalized rows into the map, the
key list is duplicate-free (exactly one record per distinct asset_id), and
the record stored under a key is the **last** row of the stream carrying
that `bauwerksnummer` (`none` exactly when no row carries it). The concrete
conjunct replays the spec scenario: two rows with the same asset_id, the
final state holds precisely the later-inserted one plus the unrelated
asset. -/

theorem dedupe_last_write_wins :
    (∀ rows : List BridgeRow, ((dedupe rows).map Prod.fst).Nodup) ∧
    (∀ (rows : List BridgeRow) (k : String),
      lookupKey k (dedupe rows) =
        rows.reverse.find? (fun b => b.bauwerksnummer = k)) ∧
    dedupe [rowEarly, rowOther, rowLate] =
      [("B1", rowLate), ("B2", rowOther)] := by
  refine ⟨?_, ?_, ?_⟩
  · intro rows
    exact dedupe_keys_nodup_general rows [] (by simp)
  · intro rows k
    have h := dedupe_lookup_general rows [] k
    rw [dedupe, h]
    cases rows.reverse.find? (fun b => b.bauwerksnummer = k) <;>
      simp [lookupKey]
  · decide

theorem pagedRow_fields (conv : ℚ → ℚ → ℚ × ℚ) (pf : String → Option ℚ)
    (f : BastFeature) (row : BridgeRow)
    (h : EtlPaged.transformFeature conv pf f = some row) :
    row.zustandsnote = posOrNull (pf (jsStr (f.props "zn92019"))) ∧
    row.bundesland = (match jsNumD (f.props "bl") 0 with
      | none => none
      | some q => EtlPaged.BL_MAP q) := by
  cases hc : f.coordinates with
  | none => simp [EtlPaged.transformFeature, hc] at h
  | some cs =>
      simp only [EtlPaged.transformFeature, hc] at h
      split_ifs at h with h1 h2 h3
      all_goals
        first
        | exact Option.noConfusion h
        | (obtain rfl := Option.some.inj h
           exact ⟨rfl, rfl⟩)

theorem tiledRow_fields (conv : ℚ → ℚ → ℚ × ℚ) (pf pi2 : String → Option ℚ)
    (f : BastFeature) (row : BridgeRow)
    (h : EtlTiled.transformFeature conv pf pi2 f = some row) :
    row.zustandsnote =
      jsOrNull (pf (jsStrC [f.props "zn92019", f.props "zustandsnote"])) ∧
    row.bundesland = strOrNull (jsStr (f.props "bundesland")) := by
  cases hc : f.coordinates with
  | none => simp [EtlTiled.transformFeature, hc] at h
  | some cs =>
      simp only [EtlTiled.transformFeature, hc] at h
      split_ifs at h with h1 h2 h3
      all_goals
        first
        | exact Option.noConfusion h
        | (obtain rfl := Option.some.inj h
           exact ⟨rfl, rfl⟩)

/-- C2. Both variants of `transformFeature` return `null` exactly when the
geometry is missing or holds fewer than two coordinates, the extracted
stable identifier is empty (after trimming in the pagination variant), or
the converted coordinate pair leaves the Germany envelope; the envelope
test keeps its boundary (strict comparisons reject only strictly outside),
so the concrete conjuncts show a conversion landing at latitude 46.999999
is rejected and one landing at 47.000001 (longitude in range) is
accepted. -/

theorem transformFeature_rejects_iff :
    (∀ (conv : ℚ → ℚ → ℚ × ℚ) (pf : String → Option ℚ) (f : BastFeature),
      EtlPaged.transformFeature conv pf f = none ↔
        (∀ cs, f.coordinates = some cs → cs.length < 2) ∨
        jsTrim (jsStr (f.props "bwnr")) = "" ∨
        (∃ cs, f.coordinates = some cs ∧
          ((conv (cs.getD 0 0) (cs.getD 1 0)).1 < 47 ∨
           55.5 < (conv (cs.getD 0 0) (cs.getD 1 0)).1 ∨
           (conv (cs.getD 0 0) (cs.getD 1 0)).2 < 5 ∨
           15.5 < (conv (cs.getD 0 0) (cs.getD 1 0)).2))) ∧
    (∀ (conv : ℚ → ℚ → ℚ × ℚ) (pf pi2 : String → Option ℚ) (f : BastFeature),
      EtlTiled.transformFeature conv pf pi2 f = none ↔
        (∀ cs, f.coordinates = some cs → cs.length < 2) ∨
        jsStrC [f.props "bwnr", f.props "bauwerksnummer", f.props "id"] = "" ∨
        (∃ cs, f.coordinates = some cs ∧
          ((conv (cs.getD 0 0) (cs.getD 1 0)).1 < 47 ∨
           55.5 < (conv (cs.getD 0 0) (cs.getD 1 0)).1 ∨
           (conv (cs.getD 0 0) (cs.getD 1 0)).2 < 5 ∨
           15.5 < (conv (cs.getD 0 0) (cs.getD 1 0)).2))) ∧
    EtlPaged.transformFeature convLow pfNone featB = none ∧
    (EtlPaged.transformFeature convHigh pfNone featB).isSome = true := by
  have hPaged : ∀ (conv : ℚ → ℚ → ℚ × ℚ) (pf : String → Option ℚ)
      (f : BastFeature),
      EtlPaged.transformFeature conv pf f = none ↔
        (∀ cs, f.coordinates = some cs → cs.length < 2) ∨
        jsTrim (jsStr (f.props "bwnr")) = "" ∨
        (∃ cs, f.coordinates = some cs ∧
          ((conv (cs.getD 0 0) (cs.getD 1 0)).1 < 47 ∨
           55.5 < (conv (cs.getD 0 0) (cs.getD 1 0)).1 ∨
           (conv (cs.getD 0 0) (cs.getD 1 0)).2 < 5 ∨
           15.5 < (conv (cs.getD 0 0) (cs.getD 1 0)).2)) := by
    intro conv pf f
    cases hc : f.coordinates with
    | none =>
        simp only [EtlPaged.transformFeature, hc]
        refine iff_of_true (by trivial) (Or.inl ?_)
        intro cs2 hcs2
        exact Option.noConfusion hcs2
    | some cs =>
        simp only [EtlPaged.transformFeature, hc]
        by_cases h1 : cs.length < 2
        · rw [if_pos h1]
          refine iff_of_true (by trivial) (Or.inl ?_)
          intro cs2 hcs2
          obtain rfl := Option.some.inj hcs2
          exact h1
        · rw [if_neg h1]
          by_cases h2 : jsTrim (jsStr (f.props "bwnr")) = ""
          · rw [if_pos h2]
            exact iff_of_true (by trivial) (Or.inr (Or.inl h2))
          · rw [if_neg h2]
            by_cases h3 : (conv (cs.getD 0 0) (cs.getD 1 0)).1 < 47 ∨
                55.5 < (conv (cs.getD 0 0) (cs.getD 1 0)).1 ∨
                (conv (cs.getD 0 0) (cs.getD 1 0)).2 < 5 ∨
                15.5 < (conv (cs.getD 0 0) (cs.getD 1 0)).2
            · rw [if_pos h3]
              exact iff_of_true (by trivial) (Or.inr (Or.inr ⟨cs, rfl, h3⟩))
            · rw [if_neg h3]
              constructor
              · intro hx
                exact Option.noConfusion hx
              · rintro (hgeom | hid | ⟨cs2, hcs2, henv⟩)
                · exact absurd (hgeom cs rfl) h1
                · exact absurd hid h2
                · obtain rfl := Option.some.inj hcs2
                  exact absurd henv h3
  have hTiled : ∀ (conv : ℚ → ℚ → ℚ × ℚ) (pf pi2 : String → Option ℚ)
      (f : BastFeature),
      EtlTiled.transformFeature conv pf pi2 f = none ↔
        (∀ cs, f.coordinates = some cs → cs.length < 2) ∨
        jsStrC [f.props "bwnr", f.props "bauwerksnummer", f.props "id"] = "" ∨
        (∃ cs, f.coordinates = some cs ∧
          ((conv (cs.getD 0 0) (cs.getD 1 0)).1 < 47 ∨
           55.5 < (conv (cs.getD 0 0) (cs.getD 1 0)).1 ∨
           (conv (cs.getD 0 0) (cs.getD 1 0)).2 < 5 ∨
           15.5 < (conv (cs.getD 0 0) (cs.getD 1 0)).2)) := by
    intro conv pf pi2 f
    cases hc : f.coordinates with
    | none =>
        simp only [EtlTiled.transformFeature, hc]
        refine iff_of_true (by trivial) (Or.inl ?_)
        intro cs2 hcs2
        exact Option.noConfusion hcs2
    | some cs =>
        simp only [EtlTiled.transformFeature, hc]
        by_cases h1 : cs.length < 2
        · rw [if_pos h1]
          refine iff_of_true (by trivial) (Or.inl ?_)
          intro cs2 hcs2
          obtain rfl := Option.some.inj hcs2
          exact h1
        · rw [if_neg h1]
          by_cases h2 : jsStrC [f.props "bwnr", f.props "bauwerksnummer",
              f.props "id"] = ""
          · rw [if_pos h2]
            exact iff_of_true (by trivial) (Or.inr (Or.inl h2))
          · rw [if_neg h2]
            by_cases h3 : (conv (cs.getD 0 0) (cs.getD 1 0)).1 < 47 ∨
                55.5 < (conv (cs.getD 0 0) (cs.getD 1 0)).1 ∨
                (conv (cs.getD 0 0) (cs.getD 1 0)).2 < 5 ∨
                15.5 < (conv (cs.getD 0 0) (cs.getD 1 0)).2
            · rw [if_pos h3]
              exact iff_of_true (by trivial) (Or.inr (Or.inr ⟨cs, rfl, h3⟩))
            · rw [if_neg h3]
              constructor
              · intro hx
                exact Option.noConfusion hx
              · rintro (hgeom | hid | ⟨cs2, hcs2, henv⟩)
                · exact absurd (hgeom cs rfl) h1
                · exact absurd hid h2
                · obtain rfl := Option.some.inj hcs2
                  exact absurd henv h3
  refine ⟨hPaged, hTiled, ?_, ?_⟩
  · exact (hPaged convLow pfNone featB).mpr
      (Or.inr (Or.inr ⟨[500000, 5200000], rfl, Or.inl (by norm_num [convLow])⟩))
  · rw [Option.isSome_iff_ne_none]
    intro hnone
    rcases (hPaged convHigh pfNone featB).mp hnone with hgeom | hid | ⟨cs, hcs, henv⟩
    · have h2 := hgeom [500000, 5200000] rfl
      simp at h2
    · exact absurd hid (by decide)
    · have hcs2 : cs = [500000, 5200000] := by
        have h4 : (some [500000, 5200000] : Option (List ℚ)) = some cs := hcs
        exact (Option.some.inj h4).symm
      subst hcs2
      rcases henv with h | h | h | h <;> norm_num [convHigh] at h

/-- The Germany-envelope test evaluated at the conversion stub (50, 9). -/

theorem envMidFalse :
    ((50 : ℚ) < 47 ∨ (55.5 : ℚ) < 50 ∨ (9 : ℚ) < 5 ∨ (15.5 : ℚ) < 9)
      = False :=
  eq_false (by norm_num)

theorem jsTrim_B1 : jsTrim "B1" = "B1" := by decide

theorem jsTrim_Unbekannt : jsTrim "Unbekannt" = "Unbekannt" := by decide

theorem jsTrim_empty : jsTrim "" = "" := by decide

/-- C6 counterexample. The tiling variant coerces the condition score with
JavaScript `|| null`, which only filters `NaN` and `0`: on a feature whose
score attribute parses to `-1` (a value ≤ 0, which the claim says must
become absent) the produced record carries `some (-1)`, not `none`. -/

theorem zustandsnote_negative_kept :
    (EtlTiled.transformFeature convMid pfNeg pfNone featScore).map
        BridgeRow.zustandsnote = some (some (-1)) ∧
    pfNeg (jsStrC [featScore.props "zn92019", featScore.props "zustandsnote"])
        = some (-1) ∧
    ((-1 : ℚ) ≤ 0) := by
  have h : EtlTiled.transformFeature convMid pfNeg pfNone featScore
      = some rowNeg := by
    simp +decide [EtlTiled.transformFeature, featScore, convMid, pfNeg,
      pfNone, jsStrC, jsStr, jsStrD, firstSome, strOrNull, jsOrNull, rowNeg,
      envMidFalse] <;> norm_num
  refine ⟨?_, by decide, by norm_num⟩
  rw [h]
  simp [rowNeg]

/-- C6 (amended). Numeric coercion of the condition score: in the
pagination variant the score is absent exactly when the source string does
not parse (`NaN`) or parses to a value ≤ 0, and equals the parsed value
when it is positive; in the tiling variant the score is absent exactly when
the string does not parse or parses to `0`, and equals the parsed value for
every non-zero value — negative parsed scores are preserved there. -/

theorem zustandsnote_coercion :
    (∀ (conv : ℚ → ℚ → ℚ × ℚ) (pf : String → Option ℚ) (f : BastFeature)
        (row : BridgeRow), EtlPaged.transformFeature conv pf f = some row →
      (row.zustandsnote = none ↔
        pf (jsStr (f.props "zn92019")) = none ∨
        ∃ v, pf (jsStr (f.props "zn92019")) = some v ∧ v ≤ 0) ∧
      (∀ v, pf (jsStr (f.props "zn92019")) = some v → 0 < v →
        row.zustandsnote = some v)) ∧
    (∀ (conv : ℚ → ℚ → ℚ × ℚ) (pf pi2 : String → Option ℚ) (f : BastFeature)
        (row : BridgeRow), EtlTiled.transformFeature conv pf pi2 f = some row →
      (row.zustandsnote = none ↔
        pf (jsStrC [f.props "zn92019", f.props "zustandsnote"]) = none ∨
        pf (jsStrC [f.props "zn92019", f.props "zustandsnote"]) = some 0) ∧
      (∀ v, pf (jsStrC [f.props "zn92019", f.props "zustandsnote"]) = some v →
        v ≠ 0 → row.zustandsnote = some v)) := by
  constructor
  · intro conv pf f row h
    obtain ⟨hz, _⟩ := pagedRow_fields conv pf f row h
    constructor
    · rw [hz]
      cases hp : pf (jsStr (f.props "zn92019")) with
      | none => simp [posOrNull]
      | some v =>
          simp only [posOrNull]
          by_cases h0 : 0 < v
          · rw [if_pos h0]
            constructor
            · intro hx
              exact Option.noConfusion hx
            · rintro (hx | ⟨w, hw, hle⟩)
              · exact Option.noConfusion hx
              · obtain rfl := Option.some.inj hw
                exact absurd (lt_of_lt_of_le h0 hle) (lt_irrefl 0)
          · rw [if_neg h0]
            exact iff_of_true rfl (Or.inr ⟨v, rfl, le_of_not_lt h0⟩)
    · intro v hv h0
      rw [hz, hv]
      simp [posOrNull, h0]
  · intro conv pf pi2 f row h
    obtain ⟨hz, _⟩ := tiledRow_fields conv pf pi2 f row h
    constructor
    · rw [hz]
      cases hp : pf (jsStrC [f.props "zn92019", f.props "zustandsnote"]) with
      | none => simp [jsOrNull]
      | some v =>
          simp only [jsOrNull]
          by_cases h0 : v = 0
          · subst h0
            rw [if_pos rfl]
            exact iff_of_true rfl (Or.inr rfl)
          · rw [if_neg h0]
            constructor
            · intro hx
              exact Option.noConfusion hx
            · rintro (hx | hx)
              · exact Option.noConfusion hx
              · exact absurd (Option.some.inj hx) h0
    · intro v hv h0
      rw [hz, hv]
      simp [jsOrNull, h0]

/-- C6 witness: on the concrete tiled feature whose score parses to `-1`,
the amended theorem yields `some (-1)` for the stored score. -/

theorem zustandsnote_coercion_witness :
    EtlTiled.transformFeature convMid pfNeg pfNone featScore = some rowNeg ∧
    rowNeg.zustandsnote = some (-1) := by
  have h : EtlTiled.transformFeature convMid pfNeg pfNone featScore
      = some rowNeg := by
    simp +decide [EtlTiled.transformFeature, featScore, convMid, pfNeg,
      pfNone, jsStrC, jsStr, jsStrD, firstSome, strOrNull, jsOrNull, rowNeg,
      envMidFalse] <;> norm_num
  refine ⟨h, ?_⟩
  exact (zustandsnote_coercion.2 convMid pfNeg pfNone featScore rowNeg h).2
    (-1) (by decide) (by norm_num)

/-- C8 counterexample. Subdivision code 9 is a known `BL_MAP` code mapping
to Bayern, and the pagination normalizer produces that name — but the
tiling normalizer performs no code lookup at all (it copies a `bundesland`
string attribute, absent here), so on the same feature it leaves the field
absent, refuting "this holds for the normalizer of both retrieval-strategy
variants". -/

theorem bundesland_variant_mismatch :
    EtlPaged.BL_MAP 9 = some "Bayern" ∧
    (EtlPaged.transformFeature convMid pfNone featBL).map
        BridgeRow.bundesland = some (some "Bayern") ∧
    (EtlTiled.transformFeature convMid pfNone pfNone featBL).map
        BridgeRow.bundesland = some none := by
  have hp : EtlPaged.transformFeature convMid pfNone featBL
      = some rowBayern := by
    simp +decide [EtlPaged.transformFeature, featBL, convMid, pfNone, jsStr,
      jsStrD, firstSome, strOrNull, jsOrNull, posOrNull, jsNum, jsNumD,
      jsTrim_B1, jsTrim_Unbekannt, jsTrim_empty, rowBayern, EtlPaged.BL_MAP,
      envMidFalse] <;> norm_num
  have ht : EtlTiled.transformFeature convMid pfNone pfNone featBL
      = some rowPlain := by
    simp +decide [EtlTiled.transformFeature, featBL, convMid, pfNone, jsStrC,
      jsStr, jsStrD, firstSome, strOrNull, jsOrNull, rowPlain, envMidFalse]
      <;> norm_num
  refine ⟨by norm_num [EtlPaged.BL_MAP], ?_, ?_⟩
  · rw [hp]
    simp [rowBayern]
  · rw [ht]
    simp [rowPlain]

/-- C8 (amended). The integer subdivision code lookup is a feature of the
pagination variant only: there, the produced record's subdivision name is
`BL_MAP` applied to `Number(props.bl ?? 0)`, the table has exactly the 16
known codes (enumerated below) and yields absent on every other rational
code. The tiling variant performs no code lookup: it copies the raw
`bundesland` string attribute, turning the empty string into absent. -/

theorem bundesland_lookup :
    (∀ (conv : ℚ → ℚ → ℚ × ℚ) (pf : String → Option ℚ) (f : BastFeature)
        (row : BridgeRow), EtlPaged.transformFeature conv pf f = some row →
      row.bundesland = (match jsNumD (f.props "bl") 0 with
        | none => none
        | some q => EtlPaged.BL_MAP q)) ∧
    (EtlPaged.BL_MAP 1 = some "Schleswig-Holstein" ∧
     EtlPaged.BL_MAP 2 = some "Hamburg" ∧
     EtlPaged.BL_MAP 3 = some "Niedersachsen" ∧
     EtlPaged.BL_MAP 4 = some "Bremen" ∧
     EtlPaged.BL_MAP 5 = some "Nordrhein-Westfalen" ∧
     EtlPaged.BL_MAP 6 = some "Hessen" ∧
     EtlPaged.BL_MAP 7 = some "Rheinland-Pfalz" ∧
     EtlPaged.BL_MAP 8 = some "Baden-Württemberg" ∧
     EtlPaged.BL_MAP 9 = some "Bayern" ∧
     EtlPaged.BL_MAP 10 = some "Saarland" ∧
     EtlPaged.BL_MAP 11 = some "Berlin" ∧
     EtlPaged.BL_MAP 12 = some "Brandenburg" ∧
     EtlPaged.BL_MAP 13 = some "Mecklenburg-Vorpommern" ∧
     EtlPaged.BL_MAP 14 = some "Sachsen" ∧
     EtlPaged.BL_MAP 15 = some "Sachsen-Anhalt" ∧
     EtlPaged.BL_MAP 16 = some "Thüringen") ∧
    (∀ q : ℚ,
      q ∉ ([1, 2, 3, 4, 5, 6, 7, 8, 9, 10, 11, 12, 13, 14, 15, 16] : List ℚ) →
      EtlPaged.BL_MAP q = none) ∧
    (∀ (conv : ℚ → ℚ → ℚ × ℚ) (pf pi2 : String → Option ℚ) (f : BastFeature)
        (row : BridgeRow), EtlTiled.transformFeature conv pf pi2 f = some row →
      row.bundesland = strOrNull (jsStr (f.props "bundesland"))) := by
  refine ⟨?_, by norm_num [EtlPaged.BL_MAP], ?_, ?_⟩
  · intro conv pf f row h
    exact (pagedRow_fields conv pf f row h).2
  · intro q hq
    simp only [List.mem_cons, List.not_mem_nil, or_false] at hq
    push_neg at hq
    obtain ⟨g1, g2, g3, g4, g5, g6, g7, g8, g9, g10, g11, g12, g13, g14,
      g15, g16⟩ := hq
    simp [EtlPaged.BL_MAP, g1, g2, g3, g4, g5, g6, g7, g8, g9, g10, g11,
      g12, g13, g14, g15, g16]
  · intro conv pf pi2 f row h
    exact (tiledRow_fields conv pf pi2 f row h).2

/-- C8 witness: the concrete paged feature carrying code 9 produces the
record whose subdivision name is Bayern, via the amended theorem. -/

theorem bundesland_lookup_witness :
    EtlPaged.transformFeature convMid pfNone featBL = some rowBayern ∧
    rowBayern.bundesland = some "Bayern" := by
  have h : EtlPaged.transformFeature convMid pfNone featBL
      = some rowBayern := by
    simp +decide [EtlPaged.transformFeature, featBL, convMid, pfNone, jsStr,
      jsStrD, firstSome, strOrNull, jsOrNull, posOrNull, jsNum, jsNumD,
      jsTrim_B1, jsTrim_Unbekannt, jsTrim_empty, rowBayern, EtlPaged.BL_MAP,
      envMidFalse] <;> norm_num
  refine ⟨h, ?_⟩
  have h2 := bundesland_lookup.1 convMid pfNone featBL rowBayern h
  rw [h2]
  simp +decide [featBL, jsNumD, EtlPaged.BL_MAP]

theorem toBatches_ne (l : List BridgeRow) (h : l ≠ []) :
    toBatches l =
      l.take UPSERT_BATCH_SIZE :: toBatches (l.drop UPSERT_BATCH_SIZE) := by
  cases l with
  | nil => exact absurd rfl h
  | cons b rest => rw [toBatches]

theorem toBatches_join (l : List BridgeRow) : (toBatches l).join = l := by
  induction l using toBatches.induct with
  | case1 => simp [toBatches]
  | case2 b rest ih =>
      rw [toBatches]
      simp only [List.join_cons, ih]
      exact List.take_append_drop _ _

theorem toBatches_mem (l : List BridgeRow) :
    ∀ batch ∈ toBatches l, batch.length ≤ UPSERT_BATCH_SIZE ∧ batch ≠ [] := by
  induction l using toBatches.induct with
  | case1 => simp [toBatches]
  | case2 b rest ih =>
      rw [toBatches]
      intro batch hb
      rcases List.mem_cons.mp hb with hb1 | hb2
      · subst hb1
        constructor
        · simpa using List.length_take_le UPSERT_BATCH_SIZE (b :: rest)
        · simp [UPSERT_BATCH_SIZE]
      · exact ih batch hb2

theorem upsertGo_eq (err : ℕ → Bool) (l : List BridgeRow) :
    ∀ k, upsertGo err k l =
      ((((toBatches l).enumFrom k).filter (fun p => !(err p.1))).map
        (fun p => p.2.length)).sum := by
  induction l using toBatches.induct with
  | case1 => intro k; simp [upsertGo, toBatches]
  | case2 b rest ih =>
      intro k
      rw [upsertGo, toBatches_ne (b :: rest) (by simp), List.enumFrom_cons]
      by_cases he : err k
      · simp [he, ih]
      · simp [he, ih]

/-- C3. The Loader splits the record list into consecutive batches of at
most `UPSERT_BATCH_SIZE = 500` records (their concatenation restores the
list), attempts one upsert per batch, and the succeeded count is the total
length of exactly the batches whose upsert did not error — a failing batch
is excluded but later batches still count, and the function is total (no
raise, no abort). The concrete conjuncts replay the spec scenario: 1200
records make 3 batches; failing batch ordinal 1 (the second batch) yields
a succeeded count of 500 + 200 = 700, covering batches 1 and 3. -/

theorem upsertBridges_batching :
    (∀ bridges : List BridgeRow, (toBatches bridges).join = bridges) ∧
    (∀ bridges : List BridgeRow, ∀ batch ∈ toBatches bridges,
      batch.length ≤ UPSERT_BATCH_SIZE ∧ batch ≠ []) ∧
    (∀ (err : ℕ → Bool) (bridges : List BridgeRow),
      upsertBridges err bridges =
        ((((toBatches bridges).enum).filter (fun p => !(err p.1))).map
          (fun p => p.2.length)).sum) ∧
    toBatches (List.replicate 1200 rowEarly)
      = [List.replicate 500 rowEarly, List.replicate 500 rowEarly,
         List.replicate 200 rowEarly] ∧
    upsertBridges (fun k => k == 1) (List.replicate 1200 rowEarly) = 700 := by
  have hne : ∀ (n : ℕ), n ≠ 0 → List.replicate n rowEarly ≠ [] := by
    intro n hn h
    have h2 := congrArg List.length h
    simp [hn] at h2
  have e1 : toBatches (List.replicate 1200 rowEarly)
      = List.replicate 500 rowEarly :: toBatches (List.replicate 700 rowEarly) := by
    rw [toBatches_ne _ (hne 1200 (by norm_num))]
    norm_num [List.take_replicate, List.drop_replicate, UPSERT_BATCH_SIZE]
  have e2 : toBatches (List.replicate 700 rowEarly)
      = List.replicate 500 rowEarly :: toBatches (List.replicate 200 rowEarly) := by
    rw [toBatches_ne _ (hne 700 (by norm_num))]
    norm_num [List.take_replicate, List.drop_replicate, UPSERT_BATCH_SIZE]
  have e3 : toBatches (List.replicate 200 rowEarly)
      = [List.replicate 200 rowEarly] := by
    rw [toBatches_ne _ (hne 200 (by norm_num))]
    norm_num [List.take_replicate, List.drop_replicate, UPSERT_BATCH_SIZE]
    simp [toBatches]
  have hb : toBatches (List.replicate 1200 rowEarly)
      = [List.replicate 500 rowEarly, List.replicate 500 rowEarly,
         List.replicate 200 rowEarly] := by
    rw [e1, e2, e3]
  refine ⟨toBatches_join, toBatches_mem, ?_, hb, ?_⟩
  · intro err bridges
    exact upsertGo_eq err bridges 0
  · rw [upsertBridges,
      upsertGo_eq (fun k => k == 1) (List.replicate 1200 rowEarly) 0, hb]
    simp only [List.enumFrom, List.filter_cons, List.map_cons, List.sum_cons,
      List.map_nil, List.sum_nil, List.filter_nil, List.length_replicate,
      Nat.reduceBEq, Bool.not_true, Bool.not_false, reduceIte]
    norm_num

/-- C3 witness: a concrete batch of the 1200-row scenario satisfies the
per-batch bound and non-emptiness, via the batching theorem. -/

theorem upsertBridges_batching_witness :
    List.replicate 500 rowEarly ∈ toBatches (List.replicate 1200 rowEarly) ∧
    (List.replicate 500 rowEarly).length ≤ UPSERT_BATCH_SIZE ∧
    List.replicate 500 rowEarly ≠ [] := by
  have hmem : List.replicate 500 rowEarly
      ∈ toBatches (List.replicate 1200 rowEarly) := by
    rw [upsertBridges_batching.2.2.2.1]
    exact List.mem_cons_self _ _
  have h2 := upsertBridges_batching.2.1 (List.replicate 1200 rowEarly)
    (List.replicate 500 rowEarly) hmem
  exact ⟨hmem, h2.1, h2.2⟩

/-- C4. In both variants, when zero records were obtained after exhausting
the source, the run ends with exit status 1 (non-zero) and the destination
effect list is empty — no upsert and no refresh call is ever issued, so the
destination store is untouched; a non-empty record list instead ends with
status 0. -/

theorem zero_records_exit_nonzero :
    EtlPaged.mainAfterFetch [] = ([], 1) ∧
    EtlTiled.mainAfterFetch [] = ([], 1) ∧
    (∀ bridges : List BridgeRow, bridges ≠ [] →
      (EtlPaged.mainAfterFetch bridges).2 = 0) := by
  refine ⟨rfl, rfl, ?_⟩
  intro bridges h
  simp [EtlPaged.mainAfterFetch, h]

/-- C4 witness: a one-row run exits with status 0. -/

theorem zero_records_exit_nonzero_witness :
    (EtlPaged.mainAfterFetch [rowEarly]).2 = 0 :=
  zero_records_exit_nonzero.2.2 [rowEarly] (by simp)

/-- C5 counterexample. Attempts 0 and 1 — the original try and its single
retry for the page at start index 0 — both fail, yet the loop does not
skip that page: the state after the two failures still has
`startIndex = 0` (only the 2 s-delay counter advanced), and the third
attempt fetches the **same** unit again and ingests it, advancing the
cursor. Under the claim, after one failed retry the unit would be skipped
and never fetched a third time. -/

theorem retry_not_bounded :
    loopStep fetchTwoFail tfNone 0 initSt
      = .cont { initSt with delays := 1 } ∧
    loopStep fetchTwoFail tfNone 1 { initSt with delays := 1 }
      = .cont { initSt with delays := 2 } ∧
    loopStep fetchTwoFail tfNone 2 { initSt with delays := 2 }
      = .cont { startIndex := 1
                totalFeatures := none
                pagesWithNoData := 0
                bridges := []
                delays := 2 } := by
  decide

/-- C5 (amended). A transient fetch failure (thrown network error or
non-ok HTTP status) makes the loop sleep 2 s and retry the same request
unit, with **no retry bound**: a failing fetch changes nothing but the
delay counter — the start index never advances past a failing unit, and
under a permanently failing source the loop never terminates (for every
fuel, `runLoop` exhausts it without breaking). A unit is never skipped. -/

theorem retry_unbounded :
    (∀ (fetch : ℕ → ℕ → FetchOutcome) (tf : BastFeature → Option BridgeRow)
        (attempt : ℕ) (s : LoopSt), fetch attempt s.startIndex = .thrown →
      loopStep fetch tf attempt s = .cont { s with delays := s.delays + 1 }) ∧
    (∀ (tf : BastFeature → Option BridgeRow) (fuel attempt : ℕ) (s : LoopSt),
      runLoop fetchThrown tf fuel attempt s = none) := by
  constructor
  · intro fetch tf attempt s h
    simp only [loopStep, h]
  · intro tf fuel
    induction fuel with
    | zero => intro attempt s; simp [runLoop]
    | succ n ih =>
        intro attempt s
        simp only [runLoop, loopStep, fetchThrown]
        exact ih (attempt + 1) _

/-- C5 witness: the amended theorem applied to the all-throwing oracle at
the initial state. -/

theorem retry_unbounded_witness :
    loopStep fetchThrown tfNone 0 initSt = .cont { initSt with delays := 1 } ∧
    runLoop fetchThrown tfNone 5 0 initSt = none := by
  constructor
  · exact retry_unbounded.1 fetchThrown tfNone 0 initSt rfl
  · exact retry_unbounded.2 tfNone 5 0 initSt

/-- C7 counterexample. The server reports a total of 0 while returning
non-empty pages: after the first page the loop knows `totalFeatures = 0`
and has `startIndex = 1 ≥ 0` — the reported total is reached — yet the
step continues, and 50 further iterations still never break, because the
JavaScript truthiness test `totalFeatures && startIndex >= totalFeatures`
is false when the recorded total is the falsy number 0. -/

theorem total_zero_not_stopping :
    loopStep fetchZeroTotal tfNone 0 initSt
      = .cont { startIndex := 1
                totalFeatures := some 0
                pagesWithNoData := 0
                bridges := []
                delays := 0 } ∧
    runLoop fetchZeroTotal tfNone 50 1
      { startIndex := 1
        totalFeatures := some 0
        pagesWithNoData := 0
        bridges := []
        delays := 0 } = none := by
  decide

/-- C7 (amended). The stopping behavior of the pagination loop, per step:
an empty page increments the consecutive-empty counter and breaks exactly
when it reaches 3 (otherwise the cursor jumps by `PAGE_SIZE`); a non-empty
page resets the counter to zero and breaks exactly when a **positive**
recorded server total has been reached by the advanced start index (the
truthiness conjunct, stated as an iff for `totalBreak`); and a break
happens in no other way. -/

theorem pagination_stop_conditions :
    (∀ (fetch : ℕ → ℕ → FetchOutcome) (tf : BastFeature → Option BridgeRow)
        (attempt : ℕ) (s : LoopSt) (t : Option ℕ),
      fetch attempt s.startIndex = .ok [] t →
      loopStep fetch tf attempt s =
        (if 3 ≤ s.pagesWithNoData + 1 then
          StepRes.brk { s with
            totalFeatures := updTotal s.totalFeatures t
            pagesWithNoData := s.pagesWithNoData + 1 }
        else
          StepRes.cont { s with
            totalFeatures := updTotal s.totalFeatures t
            pagesWithNoData := s.pagesWithNoData + 1
            startIndex := s.startIndex + PAGE_SIZE })) ∧
    (∀ (fetch : ℕ → ℕ → FetchOutcome) (tf : BastFeature → Option BridgeRow)
        (attempt : ℕ) (s : LoopSt) (fs : List BastFeature) (t : Option ℕ),
      fetch attempt s.startIndex = .ok fs t → fs ≠ [] →
      loopStep fetch tf attempt s =
        (if totalBreak { s with
              totalFeatures := updTotal s.totalFeatures t
              pagesWithNoData := 0
              bridges := s.bridges ++ fs.filterMap tf
              startIndex := s.startIndex + fs.length }
          then StepRes.brk { s with
              totalFeatures := updTotal s.totalFeatures t
              pagesWithNoData := 0
              bridges := s.bridges ++ fs.filterMap tf
              startIndex := s.startIndex + fs.length }
          else StepRes.cont { s with
              totalFeatures := updTotal s.totalFeatures t
              pagesWithNoData := 0
              bridges := s.bridges ++ fs.filterMap tf
              startIndex := s.startIndex + fs.length })) ∧
    (∀ s : LoopSt, totalBreak s = true ↔
      ∃ t, s.totalFeatures = some t ∧ 0 < t ∧ t ≤ s.startIndex) ∧
    (∀ (fetch : ℕ → ℕ → FetchOutcome) (tf : BastFeature → Option BridgeRow)
        (attempt : ℕ) (s s2 : LoopSt),
      loopStep fetch tf attempt s = StepRes.brk s2 →
      (∃ t, fetch attempt s.startIndex = .ok [] t ∧
        3 ≤ s.pagesWithNoData + 1) ∨
      (∃ fs t, fetch attempt s.startIndex = .ok fs t ∧ fs ≠ [] ∧
        totalBreak s2 = true)) := by
  refine ⟨?_, ?_, ?_, ?_⟩
  · intro fetch tf attempt s t h
    by_cases hc : 3 ≤ s.pagesWithNoData + 1
    · simp [loopStep, h, hc]
    · simp [loopStep, h, hc]
  · intro fetch tf attempt s fs t h hne
    have he : fs.isEmpty = false := by
      cases fs with
      | nil => exact absurd rfl hne
      | cons a l => rfl
    by_cases hb : totalBreak { s with
        totalFeatures := updTotal s.totalFeatures t
        pagesWithNoData := 0
        bridges := s.bridges ++ fs.filterMap tf
        startIndex := s.startIndex + fs.length } = true
    · simp [loopStep, h, he, hb]
    · rw [Bool.not_eq_true] at hb
      simp [loopStep, h, he, hb]
  · intro s
    cases hs : s.totalFeatures with
    | none => simp [totalBreak, hs]
    | some t =>
        simp [totalBreak, hs, Nat.pos_iff_ne_zero, and_comm]
  · intro fetch tf attempt s s2 h
    cases hf : fetch attempt s.startIndex with
    | thrown =>
        rw [loopStep, hf] at h
        exact StepRes.noConfusion h
    | ok fs t =>
        by_cases he : fs.isEmpty = true
        · have hfs : fs = [] := by
            cases fs with
            | nil => rfl
            | cons a l => exact Bool.noConfusion he
          subst hfs
          by_cases hc : 3 ≤ s.pagesWithNoData + 1
          · exact Or.inl ⟨t, rfl, hc⟩
          · rw [loopStep, hf] at h
            simp [hc] at h
        · rw [Bool.not_eq_true] at he
          rw [loopStep, hf] at h
          simp only [he, Bool.false_eq_true, if_false] at h
          refine Or.inr ⟨fs, t, rfl, ?_, ?_⟩
          · intro h0
            rw [h0] at he
            exact Bool.noConfusion he
          · split_ifs at h with hb
            obtain rfl := StepRes.brk.inj h
            exact hb

/-- C10. The per-tile fetch is total and failure-silent: every failure
path — a thrown primary request, a thrown JSON decode, or a non-ok primary
followed by a thrown/non-ok/non-decoding alternate — produces the empty
feature list (indistinguishable from a genuinely empty tile), any thrown
error inside the body is caught, and the request log for one tile never
contains a repeated request: the same tile is never retried (and the
function performs no delay). -/

theorem fetchBridgeTile_total :
    (∀ http bbox, http "bvwp:bruecken_offen" bbox = HttpResp.thrown →
      EtlTiled.fetchBridgeTile http bbox = []) ∧
    (∀ http bbox, http "bvwp:bruecken_offen" bbox
        = HttpResp.resp true JsonBody.jthrow →
      EtlTiled.fetchBridgeTile http bbox = []) ∧
    (∀ http bbox b1, http "bvwp:bruecken_offen" bbox = HttpResp.resp false b1 →
      http "bast:bruecken" bbox = HttpResp.thrown →
      EtlTiled.fetchBridgeTile http bbox = []) ∧
    (∀ http bbox b1, http "bvwp:bruecken_offen" bbox = HttpResp.resp false b1 →
      http "bast:bruecken" bbox = HttpResp.resp true JsonBody.jthrow →
      EtlTiled.fetchBridgeTile http bbox = []) ∧
    (∀ http bbox b1 b2,
      http "bvwp:bruecken_offen" bbox = HttpResp.resp false b1 →
      http "bast:bruecken" bbox = HttpResp.resp false b2 →
      EtlTiled.fetchBridgeTile http bbox = []) ∧
    (∀ http bbox e, EtlTiled.fetchBridgeTileBody http bbox = Except.error e →
      EtlTiled.fetchBridgeTile http bbox = []) ∧
    (∀ http bbox, (EtlTiled.tileRequests http bbox).Nodup) := by
  refine ⟨?_, ?_, ?_, ?_, ?_, ?_, ?_⟩
  · intro http bbox h
    simp [EtlTiled.fetchBridgeTile, EtlTiled.fetchBridgeTileBody, h]
  · intro http bbox h
    simp [EtlTiled.fetchBridgeTile, EtlTiled.fetchBridgeTileBody, h]
  · intro http bbox b1 h1 h2
    simp [EtlTiled.fetchBridgeTile, EtlTiled.fetchBridgeTileBody, h1, h2]
  · intro http bbox b1 h1 h2
    simp [EtlTiled.fetchBridgeTile, EtlTiled.fetchBridgeTileBody, h1, h2]
  · intro http bbox b1 b2 h1 h2
    simp [EtlTiled.fetchBridgeTile, EtlTiled.fetchBridgeTileBody, h1, h2]
  · intro http bbox e h
    simp [EtlTiled.fetchBridgeTile, h]
  · intro http bbox
    unfold EtlTiled.tileRequests
    cases http "bvwp:bruecken_offen" bbox with
    | thrown => simp
    | resp ok body => cases ok <;> simp

/-- C10 witness: the first failure case of the totality theorem at the
all-throwing oracle and a concrete tile. -/

theorem fetchBridgeTile_total_witness :
    EtlTiled.fetchBridgeTile httpDown (280000, 5230000, 330000, 5280000)
      = [] :=
  fetchBridgeTile_total.1 httpDown (280000, 5230000, 330000, 5280000) rfl

/-- C2 witness: the rejection theorem applied to a geometry-less feature. -/

theorem transformFeature_rejects_iff_witness :
    EtlPaged.transformFeature convMid pfNone featNoGeom = none :=
  (transformFeature_rejects_iff.1 convMid pfNone featNoGeom).mpr
    (Or.inl (fun cs hcs => Option.noConfusion hcs))

/-- C7 witness: the stop-condition theorem applied to a third consecutive
empty page, which breaks the loop. -/

theorem pagination_stop_conditions_witness :
    loopStep fetchEmpty tfNone 0 { initSt with pagesWithNoData := 2 }
      = StepRes.brk { initSt with pagesWithNoData := 3 } := by
  have h := pagination_stop_conditions.1 fetchEmpty tfNone 0
    { initSt with pagesWithNoData := 2 } none rfl
  rw [h]
  decide
